import Mathlib

/-!
Shallow embedding of the speech-tools streaming core:
the bounded SPSC lock-free queue of src/src/common/src/spsc_queue.hh and
the pipeline-stage control state plus run loop of
src/src/common/src/speech_filter.hh.  Machine indices (size_t) are
modelled as Nat; the circular buffer as a List of length capacity+1;
the fallible constructor as Except; try_pop's bool-plus-out-parameter
as an Option result paired with the new state.
-/

/-- State of SPSCLockFreeQueue<T> (spsc_queue.hh lines 158-163):
const capacity_, atomic head_ and tail_ indices, and the backing
buffer of capacity_+1 slots. -/
structure SPSCLockFreeQueue (T : Type) where
  capacity_ : Nat
  head_ : Nat
  tail_ : Nat
  buffer_ : List T
deriving DecidableEq

namespace SPSCLockFreeQueue

/-- next_index (lines 154-156): (current_index + 1) % (capacity_ + 1). -/
def next_index (q : SPSCLockFreeQueue T) (current_index : Nat) : Nat :=
  (current_index + 1) % (q.capacity_ + 1)

/-- try_push, copy overload (lines 51-67): fails when next(tail) == head,
otherwise stores the value at slot tail and advances tail. -/
def try_push (q : SPSCLockFreeQueue T) (value : T) :
    Bool × SPSCLockFreeQueue T :=
  let current_tail := q.tail_
  let next_tail := q.next_index current_tail
  if next_tail = q.head_ then
    (false, q)
  else
    (true, { q with buffer_ := q.buffer_.set current_tail value,
                    tail_ := next_tail })

/-- try_push, move overload (lines 75-87): same control flow as the copy
overload; the slot receives the value by move assignment. -/
def try_push_move (q : SPSCLockFreeQueue T) (value : T) :
    Bool × SPSCLockFreeQueue T :=
  let current_tail := q.tail_
  let next_tail := q.next_index current_tail
  if next_tail = q.head_ then
    (false, q)
  else
    (true, { q with buffer_ := q.buffer_.set current_tail value,
                    tail_ := next_tail })

/-- try_pop (lines 95-109): fails when head == tail, otherwise moves the
element at slot head out and advances head.  The bool result plus out
parameter is modelled as an Option paired with the new state. -/
def try_pop [Inhabited T] (q : SPSCLockFreeQueue T) :
    Option T × SPSCLockFreeQueue T :=
  let current_head := q.head_
  if current_head = q.tail_ then
    (none, q)
  else
    (some (q.buffer_.getD current_head default),
     { q with head_ := q.next_index current_head })

/-- size (lines 117-125), translated exactly as written: when tail has
wrapped below head the code returns capacity_ + tail - head. -/
def size (q : SPSCLockFreeQueue T) : Nat :=
  let current_head := q.head_
  let current_tail := q.tail_
  if current_head ≤ current_tail then
    current_tail - current_head
  else
    q.capacity_ + current_tail - current_head

/-- empty (lines 131-135): head == tail. -/
def empty (q : SPSCLockFreeQueue T) : Bool :=
  q.head_ == q.tail_

/-- full (lines 142-146): next(tail) == head. -/
def full (q : SPSCLockFreeQueue T) : Bool :=
  q.next_index q.tail_ == q.head_

end SPSCLockFreeQueue

/-- Constructor (lines 25-32): allocates capacity+1 default-initialised
slots, head = tail = 0; throws std::runtime_error when capacity is zero,
modelled as an Except error carrying the exception message. -/
def mkSPSCLockFreeQueue (T : Type) [Inhabited T] (capacity : Nat) :
    Except String (SPSCLockFreeQueue T) :=
  if capacity = 0 then
    .error "SPSCLockFreeQueue capacity cannot be zero."
  else
    .ok { capacity_ := capacity, head_ := 0, tail_ := 0,
          buffer_ := List.replicate (capacity + 1) default }

/-- The freshly constructed queue state for a given capacity. -/
def fresh (T : Type) [Inhabited T] (capacity : Nat) : SPSCLockFreeQueue T :=
  { capacity_ := capacity, head_ := 0, tail_ := 0,
    buffer_ := List.replicate (capacity + 1) default }

/-- Driver: perform one try_push per list element, in order; none when
some push reports full. -/
def pushAll [Inhabited T] (q : SPSCLockFreeQueue T) :
    List T → Option (SPSCLockFreeQueue T)
  | [] => some q
  | v :: vs =>
    let r := q.try_push v
    if r.1 then pushAll r.2 vs else none

/-- Driver: perform n try_pop calls; none when some pop reports empty,
otherwise the popped values in order together with the final state. -/
def popN [Inhabited T] (q : SPSCLockFreeQueue T) :
    Nat → Option (List T × SPSCLockFreeQueue T)
  | 0 => some ([], q)
  | n + 1 =>
    let r := q.try_pop
    match r.1 with
    | none => none
    | some v => (popN r.2 n).map fun p => (v :: p.1, p.2)

/-- Queue states reachable from a freshly constructed channel of positive
capacity by any sequence of try_push / try_pop calls. -/
inductive Reachable {T : Type} [Inhabited T] : SPSCLockFreeQueue T → Prop where
  | init (capacity : Nat) (h : 0 < capacity) : Reachable (fresh T capacity)
  | push {q : SPSCLockFreeQueue T} (v : T) (h : Reachable q) :
      Reachable (q.try_push v).2
  | pop {q : SPSCLockFreeQueue T} (h : Reachable q) :
      Reachable q.try_pop.2

/-- Occupied-count formula stated by the spec invariant: (tail - head)
mod (capacity + 1), written over Nat by adding capacity + 1 before the
subtraction so the wrapped case is well defined. -/
def specOccupiedCount (q : SPSCLockFreeQueue T) : Nat :=
  (q.tail_ + (q.capacity_ + 1) - q.head_) % (q.capacity_ + 1)

/-- Structural invariant of a channel state: both indices lie in
0..capacity and the capacity is positive. -/
def QueueInv (q : SPSCLockFreeQueue T) : Prop :=
  q.head_ ≤ q.capacity_ ∧ q.tail_ ≤ q.capacity_ ∧ 0 < q.capacity_

/-- Control state of SpeechFilter (speech_filter.hh lines 12-57): the
running_ flag, the two queue members, and the proc_thread_ member.  A
default-constructed std::thread owns no execution, modelled as none; a
spawned worker would be some ().  The constructor (line 17) initialises
running_ to false (line 53) and leaves proc_thread_ default constructed
(line 56). -/
structure SpeechFilter (InQ OutQ : Type) where
  running_ : Bool
  inQueue_ : InQ
  outQueue_ : OutQ
  proc_thread_ : Option Unit
deriving DecidableEq

/-- SpeechFilter constructor (line 17): stores the queues and keeps the
default member initialisers. -/
def mkSpeechFilter {InQ OutQ : Type} (inq : InQ) (outq : OutQ) :
    SpeechFilter InQ OutQ :=
  { running_ := false, inQueue_ := inq, outQueue_ := outq,
    proc_thread_ := none }

namespace SpeechFilter

/-- start (line 50): the whole body is running_ = true; nothing else is
touched, in particular proc_thread_ is never assigned. -/
def start (f : SpeechFilter I O) : SpeechFilter I O :=
  { f with running_ := true }

/-- stop (line 51): running_ = false. -/
def stop (f : SpeechFilter I O) : SpeechFilter I O :=
  { f with running_ := false }

end SpeechFilter

/-- Inner push-retry loop of processLoop (speech_filter.hh lines 28-36):
retry try_push until it succeeds; fuel bounds the retries performed while
the running flag is observed true. -/
def pushRetry [Inhabited U] (fuel : Nat) (qout : SPSCLockFreeQueue U)
    (v : U) : Bool × SPSCLockFreeQueue U :=
  match fuel with
  | 0 => (false, qout)
  | n + 1 =>
    let r := qout.try_push v
    if r.1 then (true, r.2) else pushRetry n r.2 v

/-- processLoop (speech_filter.hh lines 20-45), run over the two queues:
each iteration pops from the input queue; on success it transforms the
item and push-retries the result onto the output queue; on failure it
yields and retries.  The virtual transform the loop invokes on the popped
item is passed as f; fuel is the number of iterations performed while the
running flag is observed true. -/
def processLoop [Inhabited T] [Inhabited U] (f : T → U) (fuel : Nat)
    (qin : SPSCLockFreeQueue T) (qout : SPSCLockFreeQueue U) :
    SPSCLockFreeQueue T × SPSCLockFreeQueue U :=
  match fuel with
  | 0 => (qin, qout)
  | n + 1 =>
    let r := qin.try_pop
    match r.1 with
    | some input_data =>
      let pr := pushRetry (n + 1) qout (f input_data)
      processLoop f n r.2 pr.2
    | none => processLoop f n r.2 qout

/-- Setting the slot just past a prefix ps inside ps ++ r :: rs replaces r. -/
theorem set_append_length {T : Type} (ps : List T) (r : T) (rs : List T)
    (v : T) : (ps ++ r :: rs).set ps.length v = ps ++ v :: rs := by
  induction ps with
  | nil => rfl
  | cons p ps ih => simp [List.set, ih]

/-- Pushing a list into a straight (unwrapped) queue state: head 0, tail at
the end of the stored prefix ps, enough free capacity.  All pushes succeed
and the buffer gains vs right after ps. -/
theorem pushAll_straight {T : Type} [Inhabited T] (vs : List T) :
    ∀ (cap k : Nat) (ps rest : List T),
      ps.length = k → k + vs.length ≤ cap → rest.length = cap + 1 - k →
      pushAll ⟨cap, 0, k, ps ++ rest⟩ vs =
        some ⟨cap, 0, k + vs.length, ps ++ (vs ++ rest.drop vs.length)⟩ := by
  induction vs with
  | nil =>
    intro cap k ps rest hps hcap hrest
    simp [pushAll]
  | cons v vs ih =>
    intro cap k ps rest hps hcap hrest
    cases rest with
    | nil =>
      exfalso
      simp at hrest
      omega
    | cons r rs =>
      have hklt : k + 1 < cap + 1 := by simp at hcap; omega
      have hne : (k + 1) % (cap + 1) ≠ 0 := by
        rw [Nat.mod_eq_of_lt hklt]; omega
      have hset : (ps ++ r :: rs).set k v = ps ++ v :: rs := by
        rw [← hps]; exact set_append_length ps r rs v
      simp only [pushAll, SPSCLockFreeQueue.try_push,
        SPSCLockFreeQueue.next_index, hne, if_false, hset]
      rw [Nat.mod_eq_of_lt hklt]
      have hps2 : (ps ++ [v]).length = k + 1 := by simp [hps]
      have hcap2 : (k + 1) + vs.length ≤ cap := by simp at hcap; omega
      have hrest2 : rs.length = cap + 1 - (k + 1) := by
        simp at hrest; omega
      have happ : ps ++ v :: rs = (ps ++ [v]) ++ rs := by simp
      rw [happ, ih cap (k + 1) (ps ++ [v]) rs hps2 hcap2 hrest2]
      simp
      omega

/-- If pushAll succeeds from a straight state with tail k and head 0, the
pushed list fits: k + length ≤ capacity. -/
theorem pushAll_isSome_length {T : Type} [Inhabited T] (vs : List T) :
    ∀ (cap k : Nat) (buf : List T) (q1 : SPSCLockFreeQueue T),
      k ≤ cap → pushAll ⟨cap, 0, k, buf⟩ vs = some q1 →
      k + vs.length ≤ cap := by
  induction vs with
  | nil =>
    intro cap k buf q1 hk _
    simpa using hk
  | cons v vs ih =>
    intro cap k buf q1 hk hsome
    by_cases hfull : (k + 1) % (cap + 1) = 0
    · exfalso
      simp only [pushAll, SPSCLockFreeQueue.try_push,
        SPSCLockFreeQueue.next_index, hfull, if_true] at hsome
      exact Option.noConfusion hsome
    · have hklt : k + 1 < cap + 1 := by
        rcases Nat.lt_or_ge (k + 1) (cap + 1) with h | h
        · exact h
        · exfalso
          have : k + 1 = cap + 1 := by omega
          rw [this] at hfull
          exact hfull (Nat.mod_self (cap + 1))
      simp only [pushAll, SPSCLockFreeQueue.try_push,
        SPSCLockFreeQueue.next_index, hfull, if_false] at hsome
      rw [Nat.mod_eq_of_lt hklt] at hsome
      have := ih cap (k + 1) (buf.set k v) q1 (by omega) hsome
      simp
      omega

/-- Popping n elements from a straight state head h, tail t with h + n ≤ t:
all pops succeed and return the buffer segment starting at h. -/
theorem popN_straight {T : Type} [Inhabited T] (n : Nat) :
    ∀ (cap h t : Nat) (buf : List T),
      h + n ≤ t → t ≤ cap → t ≤ buf.length →
      popN ⟨cap, h, t, buf⟩ n =
        some ((buf.drop h).take n, ⟨cap, h + n, t, buf⟩) := by
  induction n with
  | zero =>
    intro cap h t buf _ _ _
    simp [popN]
  | succ n ih =>
    intro cap h t buf hn ht hbuf
    have hht : h ≠ t := by omega
    have hlt : h + 1 < cap + 1 := by omega
    have hhb : h < buf.length := by omega
    simp only [popN, SPSCLockFreeQueue.try_pop,
      SPSCLockFreeQueue.next_index, hht, if_false]
    rw [Nat.mod_eq_of_lt hlt]
    rw [ih cap (h + 1) t buf (by omega) ht hbuf,
      List.getD_eq_getElem buf default hhb]
    simp
    refine ⟨?_, by omega⟩
    rw [List.drop_eq_getElem_cons hhb, List.take_succ_cons]

/-- try_push keeps both indices within 0..capacity. -/
theorem try_push_preserves_inv {T : Type} (q : SPSCLockFreeQueue T) (v : T)
    (h : QueueInv q) : QueueInv (q.try_push v).2 := by
  obtain ⟨h1, h2, h3⟩ := h
  have hm : (q.tail_ + 1) % (q.capacity_ + 1) < q.capacity_ + 1 :=
    Nat.mod_lt _ (by omega)
  by_cases hf : (q.tail_ + 1) % (q.capacity_ + 1) = q.head_ <;>
    simp [SPSCLockFreeQueue.try_push, SPSCLockFreeQueue.next_index, hf,
      QueueInv] <;> omega

/-- try_pop keeps both indices within 0..capacity. -/
theorem try_pop_preserves_inv {T : Type} [Inhabited T]
    (q : SPSCLockFreeQueue T) (h : QueueInv q) : QueueInv q.try_pop.2 := by
  obtain ⟨h1, h2, h3⟩ := h
  have hm : (q.head_ + 1) % (q.capacity_ + 1) < q.capacity_ + 1 :=
    Nat.mod_lt _ (by omega)
  by_cases hf : q.head_ = q.tail_ <;>
    simp [SPSCLockFreeQueue.try_pop, hf, QueueInv,
      SPSCLockFreeQueue.next_index] <;> omega

/-- Every reachable channel state satisfies the index invariant. -/
theorem reachable_inv {T : Type} [Inhabited T] {q : SPSCLockFreeQueue T}
    (h : Reachable q) : QueueInv q := by
  induction h with
  | init cap hc =>
    exact ⟨by simp [fresh], by simp [fresh], by simpa [fresh] using hc⟩
  | push v _ ih => exact try_push_preserves_inv _ v ih
  | pop _ ih => exact try_pop_preserves_inv _ ih

/-- With an empty input queue the run loop only yields: the state is
unchanged however much fuel remains. -/
theorem processLoop_idle [Inhabited T] [Inhabited U] (f : T → U) (n : Nat)
    (qin : SPSCLockFreeQueue T) (qout : SPSCLockFreeQueue U)
    (h : qin.head_ = qin.tail_) :
    processLoop f n qin qout = (qin, qout) := by
  induction n with
  | zero => rfl
  | succ n ih => simp [processLoop, SPSCLockFreeQueue.try_pop, h, ih]

/-- C1: FIFO order — when every try_push of the sequence vs into a freshly
constructed channel succeeds, the following vs.length try_pop calls all
succeed and return exactly vs, element for element, in push order. -/
theorem fifo_order (cap : Nat) (vs : List Nat) (q1 : SPSCLockFreeQueue Nat)
    (hpush : pushAll (fresh Nat cap) vs = some q1) :
    ∃ q2, popN q1 vs.length = some (vs, q2) := by
  simp only [fresh] at hpush
  have hlen := pushAll_isSome_length vs cap 0
    (List.replicate (cap + 1) (default : Nat)) q1 (Nat.zero_le cap) hpush
  have h1 := pushAll_straight vs cap 0 []
    (List.replicate (cap + 1) (default : Nat)) rfl hlen (by simp)
  rw [List.nil_append, List.nil_append] at h1
  rw [h1] at hpush
  have hq : q1 = ⟨cap, 0, 0 + vs.length,
      vs ++ (List.replicate (cap + 1) (default : Nat)).drop vs.length⟩ :=
    (Option.some.inj hpush).symm
  subst hq
  have hpop := popN_straight vs.length cap 0 (0 + vs.length)
    (vs ++ (List.replicate (cap + 1) (default : Nat)).drop vs.length)
    (by omega) (by omega) (by simp)
  refine ⟨⟨cap, 0 + vs.length, 0 + vs.length,
    vs ++ (List.replicate (cap + 1) (default : Nat)).drop vs.length⟩, ?_⟩
  rw [hpop]
  simp [List.take_left]

/-- C1 witness: pushing [5, 9] into a fresh capacity-2 channel succeeds and
popping twice returns [5, 9]. -/
theorem fifo_order_witness :
    ∃ q2, popN (⟨2, 0, 2, [5, 9, 0]⟩ : SPSCLockFreeQueue Nat) 2 =
      some ([5, 9], q2) :=
  fifo_order 2 [5, 9] ⟨2, 0, 2, [5, 9, 0]⟩ (by decide)

/-- C2: on capacity 3, after push 10, push 20, push 30, pop, push 40 the
tail has wrapped below the head; three elements are occupied (the spec
formula gives 3 and popping three times returns 20, 30, 40), yet size()
returns 2 — the wrapped branch of size is off by one. -/
theorem size_wraparound_bug :
    ∃ q1 : SPSCLockFreeQueue Nat,
      pushAll (fresh Nat 3) [10, 20, 30] = some q1 ∧
      ((q1.try_pop.2).try_push 40).1 = true ∧
      ((q1.try_pop.2).try_push 40).2.size = 2 ∧
      specOccupiedCount ((q1.try_pop.2).try_push 40).2 = 3 ∧
      (popN ((q1.try_pop.2).try_push 40).2 3).map Prod.fst =
        some [20, 30, 40] :=
  ⟨⟨3, 0, 3, [10, 20, 30, 0]⟩, by decide⟩

/-- C3: stage order preservation — with 3 then 7 pushed onto the input
channel and a doubling transform, the run loop (any fuel of at least two
iterations, further iterations only idling) leaves exactly [6, 14], in
that order, on the output channel. -/
theorem stage_order_preservation (n : Nat) :
    ∃ (qin qfin : SPSCLockFreeQueue Nat),
      pushAll (fresh Nat 8) [3, 7] = some qin ∧
      popN (processLoop (fun x => x * 2) (n + 2) qin (fresh Nat 8)).2 2 =
        some ([6, 14], qfin) ∧
      qfin.empty = true := by
  refine ⟨⟨8, 0, 2, [3, 7, 0, 0, 0, 0, 0, 0, 0]⟩,
    ⟨8, 2, 2, [6, 14, 0, 0, 0, 0, 0, 0, 0]⟩, by decide, ?_, by decide⟩
  have h2 : processLoop (fun x : Nat => x * 2) (n + 2)
      (⟨8, 0, 2, [3, 7, 0, 0, 0, 0, 0, 0, 0]⟩ : SPSCLockFreeQueue Nat)
      (fresh Nat 8) =
      processLoop (fun x : Nat => x * 2) n
        ⟨8, 2, 2, [3, 7, 0, 0, 0, 0, 0, 0, 0]⟩
        ⟨8, 0, 2, [6, 14, 0, 0, 0, 0, 0, 0, 0]⟩ := rfl
  rw [h2, processLoop_idle _ n _ _ rfl]
  decide

/-- C4: try_push contract — when next(tail) = head it returns false and
leaves the state untouched; otherwise it returns true, stores the value at
slot tail and advances tail to next(tail). -/
theorem try_push_contract {T : Type} (q : SPSCLockFreeQueue T) (value : T) :
    (q.next_index q.tail_ = q.head_ → q.try_push value = (false, q)) ∧
    (q.next_index q.tail_ ≠ q.head_ →
      q.try_push value =
        (true, { q with buffer_ := q.buffer_.set q.tail_ value,
                        tail_ := q.next_index q.tail_ })) := by
  constructor <;> intro h <;> simp [SPSCLockFreeQueue.try_push, h]

/-- C4 witness: both branches at concrete states — a fresh capacity-1
channel accepts a push; a full capacity-1 channel rejects it unchanged. -/
theorem try_push_contract_witness :
    (fresh Nat 1).try_push 5 = (true, ⟨1, 0, 1, [5, 0]⟩) ∧
    (⟨1, 0, 1, [7, 0]⟩ : SPSCLockFreeQueue Nat).try_push 5 =
      (false, ⟨1, 0, 1, [7, 0]⟩) :=
  ⟨(try_push_contract (fresh Nat 1) 5).2 (by decide),
   (try_push_contract (⟨1, 0, 1, [7, 0]⟩ : SPSCLockFreeQueue Nat) 5).1
     (by decide)⟩

/-- C5: try_pop contract — it reports nothing exactly when head = tail, in
which case the state is untouched; otherwise it returns the element at
slot head and advances head to next(head).  Failure is only the boolean
result: the operation is total, no exception path exists. -/
theorem try_pop_contract {T : Type} [Inhabited T] (q : SPSCLockFreeQueue T) :
    (q.try_pop.1 = none ↔ q.head_ = q.tail_) ∧
    (q.head_ = q.tail_ → q.try_pop = (none, q)) ∧
    (q.head_ ≠ q.tail_ →
      q.try_pop = (some (q.buffer_.getD q.head_ default),
        { q with head_ := q.next_index q.head_ })) := by
  refine ⟨?_, ?_, ?_⟩
  · by_cases h : q.head_ = q.tail_ <;> simp [SPSCLockFreeQueue.try_pop, h]
  · intro h; simp [SPSCLockFreeQueue.try_pop, h]
  · intro h; simp [SPSCLockFreeQueue.try_pop, h]

/-- C5 witness: both branches at concrete states — popping a fresh channel
fails and leaves it untouched; popping a one-element channel returns the
element at head and advances head. -/
theorem try_pop_contract_witness :
    (fresh Nat 1).try_pop = (none, fresh Nat 1) ∧
    (⟨1, 0, 1, [7, 0]⟩ : SPSCLockFreeQueue Nat).try_pop =
      (some 7, ⟨1, 1, 1, [7, 0]⟩) :=
  ⟨(try_pop_contract (fresh Nat 1)).2.1 rfl,
   (try_pop_contract (⟨1, 0, 1, [7, 0]⟩ : SPSCLockFreeQueue Nat)).2.2
     (by decide)⟩

/-- C6: construction fails with the InvalidCapacity error exactly when the
requested capacity is zero; for positive capacity it yields the fresh
state with capacity + 1 storage slots. -/
theorem construction_contract (capacity : Nat) :
    (capacity = 0 →
      mkSPSCLockFreeQueue Nat capacity =
        .error "SPSCLockFreeQueue capacity cannot be zero.") ∧
    (0 < capacity →
      mkSPSCLockFreeQueue Nat capacity = .ok (fresh Nat capacity) ∧
      (fresh Nat capacity).buffer_.length = capacity + 1) ∧
    (∀ e, mkSPSCLockFreeQueue Nat capacity = .error e → capacity = 0) := by
  refine ⟨?_, ?_, ?_⟩
  · intro h
    simp [mkSPSCLockFreeQueue, h]
  · intro h
    constructor
    · simp [mkSPSCLockFreeQueue, fresh, Nat.pos_iff_ne_zero.mp h]
    · simp [fresh]
  · intro e h
    by_cases hc : capacity = 0
    · exact hc
    · simp [mkSPSCLockFreeQueue, hc] at h

/-- C6 witness: capacity 0 fails with the error message; capacity 2
succeeds with three slots. -/
theorem construction_contract_witness :
    mkSPSCLockFreeQueue Nat 0 =
      .error "SPSCLockFreeQueue capacity cannot be zero." ∧
    (mkSPSCLockFreeQueue Nat 2 = .ok (fresh Nat 2) ∧
      (fresh Nat 2).buffer_.length = 2 + 1) :=
  ⟨(construction_contract 0).1 rfl, (construction_contract 2).2.1 (by decide)⟩

/-- C7: capacity bound — from a fresh channel of capacity cap, cap pushes
all succeed; then a further push fails leaving the state unchanged and
full() is true; after one pop the next push succeeds. -/
theorem capacity_bound (cap : Nat) (vs : List Nat) (x y : Nat)
    (hcap : 0 < cap) (hlen : vs.length = cap) :
    ∃ q1, pushAll (fresh Nat cap) vs = some q1 ∧
      (q1.try_push x).1 = false ∧ (q1.try_push x).2 = q1 ∧
      q1.full = true ∧
      ((q1.try_pop.2).try_push y).1 = true := by
  have h1 : pushAll (fresh Nat cap) vs =
      some ⟨cap, 0, cap,
        vs ++ (List.replicate (cap + 1) (default : Nat)).drop vs.length⟩ := by
    have h0 := pushAll_straight vs cap 0 []
      (List.replicate (cap + 1) (default : Nat)) rfl (by omega) (by simp)
    rw [List.nil_append, List.nil_append] at h0
    simpa [fresh, hlen] using h0
  have hfullpush :
      ((⟨cap, 0, cap,
          vs ++ (List.replicate (cap + 1) (default : Nat)).drop vs.length⟩ :
        SPSCLockFreeQueue Nat).try_push x) =
      (false, ⟨cap, 0, cap,
        vs ++ (List.replicate (cap + 1) (default : Nat)).drop vs.length⟩) := by
    simp [SPSCLockFreeQueue.try_push, SPSCLockFreeQueue.next_index,
      Nat.mod_self]
  refine ⟨_, h1, ?_, ?_, ?_, ?_⟩
  · rw [hfullpush]
  · rw [hfullpush]
  · simp [SPSCLockFreeQueue.full, SPSCLockFreeQueue.next_index, Nat.mod_self]
  · have hne : (0 : Nat) ≠ cap := by omega
    have h1lt : 1 % (cap + 1) = 1 := Nat.mod_eq_of_lt (by omega)
    simp [SPSCLockFreeQueue.try_pop, SPSCLockFreeQueue.try_push,
      SPSCLockFreeQueue.next_index, hne, h1lt, Nat.mod_self]

/-- C7 witness: capacity 2, pushes [1, 2], failing push of 3, then after a
pop the push of 4 succeeds. -/
theorem capacity_bound_witness :
    ∃ q1, pushAll (fresh Nat 2) [1, 2] = some q1 ∧
      (q1.try_push 3).1 = false ∧ (q1.try_push 3).2 = q1 ∧
      q1.full = true ∧
      ((q1.try_pop.2).try_push 4).1 = true :=
  capacity_bound 2 [1, 2] 3 4 (by decide) (by decide)

/-- C8: in every channel state reachable from a freshly constructed
channel of positive capacity by try_push and try_pop calls, empty() and
full() are never simultaneously true. -/
theorem empty_full_disjoint {T : Type} [Inhabited T]
    (q : SPSCLockFreeQueue T) (h : Reachable q) :
    ¬(q.empty = true ∧ q.full = true) := by
  rintro ⟨he, hf⟩
  obtain ⟨h1, h2, h3⟩ := reachable_inv h
  simp [SPSCLockFreeQueue.empty] at he
  simp [SPSCLockFreeQueue.full, SPSCLockFreeQueue.next_index] at hf
  rcases Nat.lt_or_ge (q.tail_ + 1) (q.capacity_ + 1) with hlt | hge
  · rw [Nat.mod_eq_of_lt hlt] at hf
    omega
  · have htc : q.tail_ = q.capacity_ := by omega
    rw [htc, Nat.mod_self] at hf
    omega

/-- C8 witness: the fresh capacity-1 channel is reachable and not both
empty and full. -/
theorem empty_full_disjoint_witness :
    ¬((fresh Nat 1).empty = true ∧ (fresh Nat 1).full = true) :=
  empty_full_disjoint (fresh Nat 1) (Reachable.init 1 Nat.one_pos)

/-- C9: the stage starts Stopped; start() flips the flag to Running, a
second start() changes nothing, stop() returns it to Stopped — but the
worker member stays none across start(): the code never spawns a worker
bound to the run loop, contradicting the claimed lifecycle. -/
theorem start_sets_flag_but_spawns_no_worker :
    (mkSpeechFilter (fresh Nat 8) (fresh Nat 8)).running_ = false ∧
    (mkSpeechFilter (fresh Nat 8) (fresh Nat 8)).start.running_ = true ∧
    (mkSpeechFilter (fresh Nat 8) (fresh Nat 8)).start.start =
      (mkSpeechFilter (fresh Nat 8) (fresh Nat 8)).start ∧
    (mkSpeechFilter (fresh Nat 8) (fresh Nat 8)).start.stop.running_ =
      false ∧
    (mkSpeechFilter (fresh Nat 8) (fresh Nat 8)).proc_thread_ = none ∧
    (mkSpeechFilter (fresh Nat 8) (fresh Nat 8)).start.proc_thread_ = none :=
  ⟨rfl, rfl, rfl, rfl, rfl, rfl⟩

/-- C10: the copy and move overloads of try_push have identical observable
behaviour: same boolean result, same stored elements, same indices, for
every channel state and value. -/
theorem try_push_overloads_equivalent {T : Type} (q : SPSCLockFreeQueue T)
    (value : T) : q.try_push value = q.try_push_move value := rfl
